import Mathlib

/-
Verification development for the camera_desktop plugin (linux + windows
native implementations).  Each definition below is a shallow embedding of a
function or data structure of the C/C++ sources under src/; the source file
and line ranges are named in the doc comments.  Theorems about the claims of
the specification follow after all definitions.
-/

namespace CameraDesktop

/-- Session lifecycle states, from `enum class CameraState` in
src/linux/camera.h (lines 16-23) and src/windows/camera.h (lines 27-34). -/
inductive CamState
  | created
  | initializing
  | running
  | paused
  | disposing
  | disposed
deriving DecidableEq, Repr

/- ────────────────────────────────────────────────────────────────────────
Triple buffer (FrameSlotRing): src/linux/camera_texture.cc and
src/windows/camera_texture.cpp.
──────────────────────────────────────────────────────────────────────── -/

/-- Events on the linux triple buffer (camera_texture.cc).  The producer's
`camera_texture_update` is split at its lock boundaries into `updBegin`
(phase 1: locked dimension check / reallocation and capture of `write_idx`,
lines 120-137, followed by the start of the unlocked memcpy of frame
`frameId`, line 148) and `updEnd` (phase 3: locked swap of
`write_idx` and `ready_idx` and setting `has_new_frame`, lines 151-158).
`obtain` is the consumer's `camera_texture_copy_pixels_impl`
(lines 32-62), which runs entirely under the lock and can therefore
interleave between `updBegin` and `updEnd`. -/
inductive RingEvent
  | updBegin (width height frameId : Nat)
  | updEnd
  | obtain
deriving DecidableEq, Repr

/-- State of the linux triple buffer `struct _CameraTexture`
(camera_texture.cc lines 13-27).  `content i = some f` means buffer `i`
holds the completely copied frame `f`; `none` means the buffer holds no
complete frame (freshly allocated, or a copy into it is in flight).
`copying` is the producer position between `updBegin` and `updEnd`
(the captured `wi` and the frame id being copied).  `completed` is a ghost
history of the frame ids whose copy and swap both finished, and
`sinceRealloc` counts completed updates since the buffers were last
(re)allocated. -/
structure RingState where
  writeIdx : Fin 3
  readIdx : Fin 3
  readyIdx : Fin 3
  hasNewFrame : Bool
  width : Nat
  height : Nat
  bufferSize : Nat
  content : Fin 3 → Option Nat
  copying : Option (Fin 3 × Nat)
  completed : List Nat
  sinceRealloc : Nat

/-- Initial state from `camera_texture_init` (camera_texture.cc lines
88-100): `write_idx = 0`, `read_idx = 1`, `ready_idx = 2`, no frame, zero
dimensions, all three buffers null. -/
def initRing : RingState :=
  { writeIdx := 0
  , readIdx := 1
  , readyIdx := 2
  , hasNewFrame := false
  , width := 0
  , height := 0
  , bufferSize := 0
  , content := fun _ => none
  , copying := none
  , completed := []
  , sinceRealloc := 0 }

/-- Phase 1 of `camera_texture_update` (camera_texture.cc lines 113-137)
followed by the start of the unlocked copy (line 148).  Under the lock: if
`required != buffer_size`, all three buffers are freed and reallocated and
the dimensions stored (so every buffer loses its contents); `write_idx` is
captured.  The copy into `buffers[wi]` then begins outside the lock, so
buffer `wi` holds no complete frame until `updEnd`.  The producer is a
single thread, so a second update cannot begin while one is in flight. -/
def ringUpdBegin (s : RingState) (w h f : Nat) : RingState :=
  if s.copying ≠ none then s
  else if w * h * 4 = s.bufferSize then
    { s with copying := some (s.writeIdx, f)
           , content := fun j => if j = s.writeIdx then none else s.content j }
  else
    { s with bufferSize := w * h * 4, width := w, height := h
           , sinceRealloc := 0
           , copying := some (s.writeIdx, f)
           , content := fun _ => none }

/-- Phase 3 of `camera_texture_update` (camera_texture.cc lines 150-158):
the copy into `buffers[wi]` is complete, and under the lock `write_idx` and
`ready_idx` are swapped and `has_new_frame` set. -/
def ringUpdEnd (s : RingState) : RingState :=
  match s.copying with
  | none => s
  | some (wi, f) =>
    { s with content := fun j => if j = wi then some f else s.content j
           , copying := none
           , writeIdx := s.readyIdx
           , readyIdx := s.writeIdx
           , hasNewFrame := true
           , completed := s.completed ++ [f]
           , sinceRealloc := s.sinceRealloc + 1 }

/-- The consumer's `camera_texture_copy_pixels_impl` (camera_texture.cc
lines 32-62), atomic because it holds the lock throughout.  Returns `none`
(the C code returns FALSE) when the dimensions are zero or the buffers are
unallocated; otherwise swaps `ready_idx` and `read_idx` if a new frame is
available and returns the read index together with that buffer's content. -/
def ringObtain (s : RingState) : RingState × Option (Fin 3 × Option Nat) :=
  if s.width = 0 ∨ s.height = 0 ∨ s.bufferSize = 0 then (s, none)
  else if s.hasNewFrame then
    ({ s with readIdx := s.readyIdx, readyIdx := s.readIdx, hasNewFrame := false },
     some (s.readyIdx, s.content s.readyIdx))
  else (s, some (s.readIdx, s.content s.readIdx))

/-- One interleaving step of the two threads on the triple buffer. -/
def ringStep (s : RingState) : RingEvent → RingState
  | RingEvent.updBegin w h f => ringUpdBegin s w h f
  | RingEvent.updEnd => ringUpdEnd s
  | RingEvent.obtain => (ringObtain s).1

/-- The triple-buffer state reached from `camera_texture_init` by an
arbitrary interleaving of producer and consumer events. -/
def ringRun (es : List RingEvent) : RingState :=
  es.foldl ringStep initRing

/-- Invariant of the triple buffer: the three role indices are pairwise
distinct; an in-flight copy always targets the current `write_idx`; every
complete buffer content was written by a completed update; and once at
least one update has completed since the last reallocation, the buffer the
consumer would receive holds a complete frame. -/
def RingInv (s : RingState) : Prop :=
  s.writeIdx ≠ s.readIdx ∧
  s.writeIdx ≠ s.readyIdx ∧
  s.readIdx ≠ s.readyIdx ∧
  (∀ p : Fin 3 × Nat, s.copying = some p → p.1 = s.writeIdx) ∧
  (∀ i f, s.content i = some f → f ∈ s.completed) ∧
  (0 < s.sinceRealloc →
    (s.hasNewFrame = true → s.content s.readyIdx ≠ none) ∧
    (s.hasNewFrame = false → s.content s.readIdx ≠ none))

/- ────────────────────────────────────────────────────────────────────────
Lock discipline of the two Update implementations (claim C7).
──────────────────────────────────────────────────────────────────────── -/

/-- The distinct kinds of work inside an Update call on the triple buffer. -/
inductive UpdAction
  | checkRealloc
  | captureWriteIdx
  | bulkCopy
  | swapWriteReady
deriving DecidableEq, BEq, Repr

/-- One phase of an Update implementation: what it does and whether the
texture mutex is held while it does it. -/
structure UpdPhase where
  action : UpdAction
  lockHeld : Bool
deriving DecidableEq, Repr

/-- Phase structure of linux `camera_texture_update` (camera_texture.cc
lines 113-158): lock is held for the dimension check / reallocation and the
capture of `write_idx` (lines 120-137), released for the bulk memcpy
(line 148), and re-taken for the index swap (lines 151-158). -/
def linuxUpdatePhases : List UpdPhase :=
  [ { action := UpdAction.checkRealloc, lockHeld := true }
  , { action := UpdAction.captureWriteIdx, lockHeld := true }
  , { action := UpdAction.bulkCopy, lockHeld := false }
  , { action := UpdAction.swapWriteReady, lockHeld := true } ]

/-- Phase structure of windows `CameraTexture::Update` (camera_texture.cpp
lines 22-42): a single `std::lock_guard` constructed at line 25 covers the
dimension check (28-34), the memcpy (37) and the index swap (40-41). -/
def winUpdatePhases : List UpdPhase :=
  [ { action := UpdAction.checkRealloc, lockHeld := true }
  , { action := UpdAction.bulkCopy, lockHeld := true }
  , { action := UpdAction.swapWriteReady, lockHeld := true } ]

/-- An Update implementation performs its bulk pixel copy without holding
the lock. -/
def copyOutsideLock (ps : List UpdPhase) : Bool :=
  ps.all fun p => !(p.action == UpdAction.bulkCopy) || !p.lockHeld

/- ────────────────────────────────────────────────────────────────────────
Shared-buffer image-stream publication order (claim C3):
linux Camera::OnNewSample FFI path (camera.cc lines 269-292) and
windows Camera::PostImageStreamFrame (camera.cpp lines 1006-1043).
──────────────────────────────────────────────────────────────────────── -/

/-- The observable writes a producer performs on the shared
`ImageStreamBuffer` when publishing one frame, in program order. -/
inductive PublishWrite
  | setReadyZero
  | writePixelData
  | writeMetadata
  | releaseFence
  | setReadyOne
deriving DecidableEq, BEq, Repr

/-- Write sequence of the linux FFI image-stream path (camera.cc lines
269-292): `buf->ready = 0` (line 270), pixel memcpy (272-279), metadata
writes width/height/bytes_per_row/format/sequence (281-285),
`std::atomic_thread_fence(std::memory_order_release)` (289), then
`buf->ready = 1` (290). -/
def linuxStreamPublish : List PublishWrite :=
  [ PublishWrite.setReadyZero
  , PublishWrite.writePixelData
  , PublishWrite.writeMetadata
  , PublishWrite.releaseFence
  , PublishWrite.setReadyOne ]

/-- Write sequence of windows `Camera::PostImageStreamFrame` (camera.cpp
lines 1020-1028): `buf->ready = 0`, pixel memcpy, metadata writes, then a
plain `buf->ready = 1` store.  There is no fence between the data writes
and the ready flag; the whole block runs under `image_stream_ffi_mutex_`,
which the external FFI reader never takes. -/
def winStreamPublish : List PublishWrite :=
  [ PublishWrite.setReadyZero
  , PublishWrite.writePixelData
  , PublishWrite.writeMetadata
  , PublishWrite.setReadyOne ]

/-- A pixel or metadata write of the frame. -/
def isDataWrite : PublishWrite → Bool
  | PublishWrite.writePixelData => true
  | PublishWrite.writeMetadata => true
  | _ => false

/-- A `ready = 0` write occurs before any data write of the frame. -/
def readyZeroBeforeData : List PublishWrite → Bool
  | [] => true
  | PublishWrite.setReadyZero :: _ => true
  | w :: rest => !isDataWrite w && readyZeroBeforeData rest

/-- No data write of the frame occurs after the `ready = 1` write. -/
def noDataAfterReadyOne : List PublishWrite → Bool
  | [] => true
  | PublishWrite.setReadyOne :: rest => !(rest.any isDataWrite)
  | _ :: rest => noDataAfterReadyOne rest

/-- The writes that follow the last data write of the frame. -/
def suffixAfterLastData (ws : List PublishWrite) : List PublishWrite :=
  (ws.reverse.takeWhile fun w => !isDataWrite w).reverse

/-- Somewhere in the list, a release fence occurs strictly before the first
`ready = 1` write. -/
def fenceThenReadyOne : List PublishWrite → Bool
  | [] => false
  | PublishWrite.setReadyOne :: _ => false
  | PublishWrite.releaseFence :: rest =>
      rest.contains PublishWrite.setReadyOne || fenceThenReadyOne rest
  | _ :: rest => fenceThenReadyOne rest

/-- The release/acquire publication contract of the claim: `ready = 0`
precedes every data write, every data write precedes `ready = 1`, and a
release fence sits between the last data write and the `ready = 1` write. -/
def releaseFencedPublish (ws : List PublishWrite) : Bool :=
  readyZeroBeforeData ws && noDataAfterReadyOne ws &&
    fenceThenReadyOne (suffixAfterLastData ws)

/- ────────────────────────────────────────────────────────────────────────
Pending-operation table for Initialize (claims C1, C9):
linux Camera::RespondToPendingInit (camera.cc lines 162-187) and
windows Camera::CompleteInit / Camera::FailAllPendingResults
(camera.cpp lines 746-792).
──────────────────────────────────────────────────────────────────────── -/

/-- A response delivered to a pending platform-channel method call: either
a success payload carrying the negotiated preview width and height, or an
error with a code and a message. -/
structure MethodResponse where
  isError : Bool
  code : String
  message : String
  width : Nat
  height : Nat
deriving DecidableEq, Repr

/-- Error message used by the linux init timeout (camera.cc line 411) and
by the windows timeout thread (camera.cpp line 506). -/
def timeoutMessage : String := "Camera initialization timed out — no frames received"

/-- Error message passed by linux `Camera::Dispose` to
`RespondToPendingInit` (camera.cc line 616). -/
def linuxDisposeMessage : String := "Camera disposed during initialization"

/-- Error message passed by windows `Camera::DisposeInternal` to
`FailAllPendingResults` (camera.cpp line 1179). -/
def winDisposeMessage : String := "Camera disposed"

/-- The empty message (success responses carry no message). -/
def emptyMessage : String := ""

/-- Pending-init bookkeeping of the linux Camera: whether
`pending_init_call_` is non-null, and the armed timeout source id
(`init_timeout_id_`, 0 when disarmed). -/
structure LinuxPendingInit where
  pendingCall : Bool
  initTimeoutId : Nat
deriving DecidableEq, Repr

/-- Linux `Camera::RespondToPendingInit` (camera.cc lines 162-187): if
`pending_init_call_` is null, return without doing anything; otherwise
cancel the timeout, deliver exactly one success (`previewWidth`,
`previewHeight`) or one `initialization_failed` error, and null the
pending call.  Returns the new state and the list of responses emitted by
this call.  `aw`/`ah` are the values of the `actual_width_`/`actual_height_`
atomics read on the success path. -/
def linuxRespondToPendingInit (s : LinuxPendingInit) (success : Bool)
    (errorMessage : String) (aw ah : Nat) : LinuxPendingInit × List MethodResponse :=
  if s.pendingCall = false then (s, [])
  else
    let cleared : LinuxPendingInit := { pendingCall := false, initTimeoutId := 0 }
    if success then
      (cleared,
       [{ isError := false, code := emptyMessage, message := emptyMessage
        , width := aw, height := ah }])
    else
      (cleared,
       [{ isError := true, code := "initialization_failed", message := errorMessage
        , width := 0, height := 0 }])

/-- The four triggers that can resolve a pending linux Initialize call:
first frame (OnNewSample lines 355-363, dispatched to the main thread),
a GStreamer bus error during kInitializing (OnBusMessage lines 379-382),
the 8-second timeout (OnInitTimeout lines 405-418), and Dispose
(camera.cc lines 614-617).  Each ends in a call to
`RespondToPendingInit`, which is the single arbiter. -/
inductive InitTrigger
  | firstFrame (w h : Nat)
  | busError (msg : String)
  | timeout
  | dispose
deriving DecidableEq, Repr

/-- Effect of one trigger on the linux pending-init state. -/
def linuxInitTriggerStep (s : LinuxPendingInit) :
    InitTrigger → LinuxPendingInit × List MethodResponse
  | InitTrigger.firstFrame w h => linuxRespondToPendingInit s true emptyMessage w h
  | InitTrigger.busError m => linuxRespondToPendingInit s false m 0 0
  | InitTrigger.timeout => linuxRespondToPendingInit s false timeoutMessage 0 0
  | InitTrigger.dispose => linuxRespondToPendingInit s false linuxDisposeMessage 0 0

/-- Runs a sequence of triggers, concatenating the responses each emits. -/
def linuxRunInitTriggers (s : LinuxPendingInit) :
    List InitTrigger → LinuxPendingInit × List MethodResponse
  | [] => (s, [])
  | t :: rest =>
    let r1 := linuxInitTriggerStep s t
    let r2 := linuxRunInitTriggers r1.1 rest
    (r2.1, r1.2 ++ r2.2)

/-- A linux camera with an in-flight Initialize: `pending_init_call_` set
(camera.cc line 65) and the 8-second timeout armed (line 89). -/
def linuxPendingArmed : LinuxPendingInit :=
  { pendingCall := true, initTimeoutId := 1 }

/-- The windows PendingOperationTable: the three `pending_*` MethodResult
slots guarded by `pending_mutex_` (camera.h lines 153-159); a field is true
when the slot holds an outstanding completion. -/
structure WinPendingTable where
  pendingInit : Bool
  pendingStartRecord : Bool
  pendingStopRecord : Bool
deriving DecidableEq, Repr

/-- Windows `Camera::CompleteInit` (camera.cpp lines 746-776): move
`pending_init_` out under `pending_mutex_`; if the slot was empty, return;
otherwise deliver exactly one success payload or one
`initialization_failed` error. -/
def winCompleteInit (p : WinPendingTable) (success : Bool) (err : String)
    (w h : Nat) : WinPendingTable × List MethodResponse :=
  if p.pendingInit = false then (p, [])
  else
    let cleared : WinPendingTable := { p with pendingInit := false }
    if success then
      (cleared,
       [{ isError := false, code := emptyMessage, message := emptyMessage
        , width := w, height := h }])
    else
      (cleared,
       [{ isError := true, code := "initialization_failed", message := err
        , width := 0, height := 0 }])

/-- Windows `Camera::FailAllPendingResults` (camera.cpp lines 778-792):
under `pending_mutex_`, each outstanding slot is failed with error code
`disposed` and reset. -/
def winFailAllPendingResults (p : WinPendingTable) (err : String) :
    WinPendingTable × List MethodResponse :=
  let resp : MethodResponse :=
    { isError := true, code := "disposed", message := err, width := 0, height := 0 }
  let initResp : List MethodResponse := if p.pendingInit then [resp] else []
  let startResp : List MethodResponse := if p.pendingStartRecord then [resp] else []
  let stopResp : List MethodResponse := if p.pendingStopRecord then [resp] else []
  ({ pendingInit := false, pendingStartRecord := false, pendingStopRecord := false },
   initResp ++ startResp ++ stopResp)

/-- The triggers that can resolve a pending windows Initialize: first
preview sample (OnPreviewSample lines 722-739), an engine error event
(OnEngineEvent lines 537-548, via FailAllPendingResults), a failed
INITIALIZED event or preview start (lines 551-570, via CompleteInit), the
8-second timeout thread (Initialize lines 496-510), and dispose
(DisposeInternal line 1179, via FailAllPendingResults). -/
inductive WinInitTrigger
  | firstFrame (w h : Nat)
  | engineError (msg : String)
  | engineInitFailed (msg : String)
  | timeout
  | dispose
deriving DecidableEq, Repr

/-- Effect of one trigger on the windows pending table. -/
def winInitTriggerStep (p : WinPendingTable) :
    WinInitTrigger → WinPendingTable × List MethodResponse
  | WinInitTrigger.firstFrame w h => winCompleteInit p true emptyMessage w h
  | WinInitTrigger.engineError m => winFailAllPendingResults p m
  | WinInitTrigger.engineInitFailed m => winCompleteInit p false m 0 0
  | WinInitTrigger.timeout => winCompleteInit p false timeoutMessage 0 0
  | WinInitTrigger.dispose => winFailAllPendingResults p winDisposeMessage

/-- Runs a sequence of windows triggers, concatenating the responses. -/
def winRunInitTriggers (p : WinPendingTable) :
    List WinInitTrigger → WinPendingTable × List MethodResponse
  | [] => (p, [])
  | t :: rest =>
    let r1 := winInitTriggerStep p t
    let r2 := winRunInitTriggers r1.1 rest
    (r2.1, r1.2 ++ r2.2)

/-- A windows camera with an in-flight Initialize and no pending record
operations (camera.cpp lines 475-478). -/
def winPendingInitOnly : WinPendingTable :=
  { pendingInit := true, pendingStartRecord := false, pendingStopRecord := false }

/-- The fully-cleared windows pending table. -/
def winPendingCleared : WinPendingTable :=
  { pendingInit := false, pendingStartRecord := false, pendingStopRecord := false }

/-- The cleared linux pending-init state (call nulled, timeout disarmed). -/
def linuxPendingCleared : LinuxPendingInit :=
  { pendingCall := false, initTimeoutId := 0 }

/- ────────────────────────────────────────────────────────────────────────
Recording branch (claims C4, C5, C6):
src/windows/record_handler.{h,cpp} and src/linux/record_handler.cc.
──────────────────────────────────────────────────────────────────────── -/

/-- Cap on queued video items, `RecordHandler::kMaxVideoQueueItems`
(windows record_handler.h line 78). -/
def kMaxVideoQueueItems : Nat := 8

/-- State touched by windows `RecordHandler::AppendFrame`
(record_handler.cpp lines 404-439): the gate flags, the video queue
occupancy `video_queue_size_`, the CFR counter `video_frame_counter_`, and
(as a ghost) the presentation timestamps of the video items accepted into
the queue, in order. -/
structure WinRecQueue where
  isRecording : Bool
  acceptingItems : Bool
  writerRunning : Bool
  videoQueueSize : Nat
  frameCounter : Nat
  acceptedTs : List Nat
deriving DecidableEq, Repr

/-- Windows `RecordHandler::AppendFrame` (record_handler.cpp lines
404-439): return if not recording or not accepting; compute the tentative
timestamp `video_frame_counter_ * frame_duration_100ns_`; under the queue
lock re-check the gates and return if `video_queue_size_ >=
kMaxVideoQueueItems` (dropping the frame WITHOUT advancing the counter);
otherwise enqueue and increment both the occupancy and the counter.
`dur` is `frame_duration_100ns_`. -/
def winAppendFrame (dur : Nat) (s : WinRecQueue) : WinRecQueue :=
  if !(s.isRecording && s.acceptingItems) then s
  else if !(s.acceptingItems && s.writerRunning && s.isRecording) then s
  else if kMaxVideoQueueItems ≤ s.videoQueueSize then s
  else
    { s with videoQueueSize := s.videoQueueSize + 1
           , acceptedTs := s.acceptedTs ++ [s.frameCounter * dur]
           , frameCounter := s.frameCounter + 1 }

/-- The queue state right after windows `RecordHandler::Start` succeeds
(record_handler.cpp lines 269-284): queue emptied, counter reset, gates
open, writer thread running. -/
def winRecStartState : WinRecQueue :=
  { isRecording := true, acceptingItems := true, writerRunning := true
  , videoQueueSize := 0, frameCounter := 0, acceptedTs := [] }

/-- Windows `RecordHandler::WriterLoop` (record_handler.cpp lines 445-515)
viewed over one recording: `queued` is the sequence of accepted queue items
(by id) and `stopAfter` the number of them the loop dequeues and writes
before `Stop()` clears `writer_running_`.  Once stop is observed, the loop
pops and discards every remaining queued item (lines 461-472) and then
calls `writer_->Finalize()` (line 506).  Returns the items written, the
number of accepted items dropped, and whether Finalize was reached. -/
def winWriterLoop : List Nat → Nat → List Nat × Nat × Bool
  | q, 0 => ([], q.length, true)
  | [], _ + 1 => ([], 0, true)
  | i :: rest, k + 1 =>
    let r := winWriterLoop rest k
    (i :: r.1, r.2.1, r.2.2)

/-- The ordered actions of linux `RecordHandler::StopRecording` on the
recording path (record_handler.cc lines 338-399): install the EOS probe on
the filesink pad (355-359), send EOS to the valve's sink pad (369-373),
close the video valve (376), close the audio valve (380-382), send EOS to
the audio encoder (383-388). -/
inductive LinuxStopAction
  | installEosProbe
  | sendEosToValve
  | closeVideoValve
  | closeAudioValve
  | sendAudioEos
deriving DecidableEq, BEq, Repr

/-- Action order of linux `RecordHandler::StopRecording`. -/
def linuxStopActions : List LinuxStopAction :=
  [ LinuxStopAction.installEosProbe
  , LinuxStopAction.sendEosToValve
  , LinuxStopAction.closeVideoValve
  , LinuxStopAction.closeAudioValve
  , LinuxStopAction.sendAudioEos ]

/-- The end-of-stream marker is sent into the recording branch strictly
before the upstream gate (the video valve) is closed. -/
def eosPrecedesClose : List LinuxStopAction → Bool
  | [] => false
  | LinuxStopAction.closeVideoValve :: _ => false
  | LinuxStopAction.sendEosToValve :: rest =>
      rest.contains LinuxStopAction.closeVideoValve
  | _ :: rest => eosPrecedesClose rest

/-- Start/Stop lifecycle state of the windows RecordHandler:
`is_recording_` and whether a previous `Stop()`'s background finalizer
(`stop_thread_`) is still running. -/
structure WinRecLifecycle where
  isRecording : Bool
  stopThreadActive : Bool
deriving DecidableEq, Repr

/-- The `stop_thread_.join()` at the top of windows `RecordHandler::Start`
(record_handler.cpp lines 165-169), performed under `lifecycle_mutex_`:
Start proceeds only once the previous finalize has fully completed. -/
def winJoinStopThread (s : WinRecLifecycle) : WinRecLifecycle :=
  { s with stopThreadActive := false }

/-- Outcome of windows `RecordHandler::Start`. -/
inductive WinStartOutcome
  | started
  | alreadyRecording
deriving DecidableEq, Repr

/-- Windows `RecordHandler::Start` (record_handler.cpp lines 159-293):
take `lifecycle_mutex_`, join any pending `stop_thread_`, then reject if
`is_recording_` is still set, else begin the new recording. -/
def winRecStart (s : WinRecLifecycle) : WinRecLifecycle × WinStartOutcome :=
  let s1 := winJoinStopThread s
  if s1.isRecording then (s1, WinStartOutcome.alreadyRecording)
  else ({ s1 with isRecording := true }, WinStartOutcome.started)

/-- Windows `RecordHandler::Stop` (record_handler.cpp lines 295-402):
under `lifecycle_mutex_`, if fully idle return immediately; otherwise
clear the gate flags (so `is_recording_` is false) and spawn the
background `stop_thread_` that joins the workers, finalizes the file and
invokes the completion. -/
def winRecStop (s : WinRecLifecycle) : WinRecLifecycle :=
  if !s.isRecording && !s.stopThreadActive then s
  else { isRecording := false, stopThreadActive := true }

/-- Lifecycle state of the linux RecordHandler: `is_setup_`,
`is_recording_`, and (as a ghost) whether an EOS has been sent whose
filesink probe has not yet fired. -/
structure LinuxRecState where
  isSetup : Bool
  isRecording : Bool
  finalizing : Bool
deriving DecidableEq, Repr

/-- Outcome of linux `RecordHandler::StartRecording`. -/
inductive LinuxStartOutcome
  | ok
  | errorAlreadyInProgress
  | errorNotSetup
deriving DecidableEq, Repr

/-- Linux `RecordHandler::StartRecording` (record_handler.cc lines
269-302): fails with "Recording is already in progress" while
`is_recording_` is still true, fails if the branch was never set up,
otherwise opens the valves and sets `is_recording_`. -/
def linuxStartRecording (s : LinuxRecState) : LinuxRecState × LinuxStartOutcome :=
  if s.isRecording then (s, LinuxStartOutcome.errorAlreadyInProgress)
  else if !s.isSetup then (s, LinuxStartOutcome.errorNotSetup)
  else ({ s with isRecording := true }, LinuxStartOutcome.ok)

/-- Linux `RecordHandler::StopRecording` on the recording path
(record_handler.cc lines 338-399): sends EOS and closes the valves but
does NOT clear `is_recording_`; that happens only in the EOS probe's idle
callback (lines 320-333) once the file has been flushed. -/
def linuxStopRecording (s : LinuxRecState) : LinuxRecState :=
  if !s.isRecording then s else { s with finalizing := true }

/-- The EOS probe's main-thread callback (record_handler.cc lines 320-333):
responds with the output path and finally clears `is_recording_`. -/
def linuxEosProbeFired (s : LinuxRecState) : LinuxRecState :=
  { s with isRecording := false, finalizing := false }

/- ────────────────────────────────────────────────────────────────────────
Dispose idempotence (claim C8): linux Camera::Dispose (camera.cc lines
606-664) and windows Camera::DisposeAsync (camera.cpp lines 1146-1164).
──────────────────────────────────────────────────────────────────────── -/

/-- Linux `Camera::Dispose` entry (camera.cc lines 608-612):
`state_.exchange(kDisposing)` and an early return when the previous value
was already kDisposing or kDisposed.  Returns the new state and whether
this call claimed the teardown. -/
def linuxDisposeExchange (s : CamState) : CamState × Bool :=
  if s = CamState.disposing ∨ s = CamState.disposed then (CamState.disposing, false)
  else (CamState.disposing, true)

/-- Interleaving events on the shared state: a `Dispose()` call performing
its atomic exchange, and the completion of the claimed teardown storing
kDisposed (camera.cc line 663). -/
inductive DisposeEvent
  | call
  | teardownDone
deriving DecidableEq, Repr

/-- One event on (state, number of teardowns started so far). -/
def disposeStep (p : CamState × Nat) : DisposeEvent → CamState × Nat
  | DisposeEvent.call =>
    let r := linuxDisposeExchange p.1
    (r.1, if r.2 then p.2 + 1 else p.2)
  | DisposeEvent.teardownDone =>
    (if p.1 = CamState.disposing then CamState.disposed else p.1, p.2)

/-- Folds an arbitrary interleaving of Dispose calls and teardown
completions; the exchanges are atomic, so any concurrent execution is one
of these sequential orders. -/
def disposeRun (s0 : CamState) (es : List DisposeEvent) : CamState × Nat :=
  es.foldl disposeStep (s0, 0)

/-- Outcome of windows `Camera::DisposeAsync`. -/
inductive WinDisposeOutcome
  | startsTeardown
  | queuedBehindInProgress
  | alreadyDone
deriving DecidableEq, Repr

/-- Windows `Camera::DisposeAsync` (camera.cpp lines 1146-1164): under
`dispose_mutex_` and `state_mutex_`, an already-Disposed camera completes
immediately, a Disposing camera queues the callback behind the in-progress
teardown, and otherwise this call claims the Disposing transition and
spawns the single teardown thread. -/
def winDisposeAsync (s : CamState) : CamState × WinDisposeOutcome :=
  if s = CamState.disposed then (s, WinDisposeOutcome.alreadyDone)
  else if s = CamState.disposing then (s, WinDisposeOutcome.queuedBehindInProgress)
  else (CamState.disposing, WinDisposeOutcome.startsTeardown)

/- ────────────────────────────────────────────────────────────────────────
Pause/resume and per-frame sink routing (claim C10):
linux Camera::PausePreview/ResumePreview (camera.cc lines 591-598) and
OnNewSample (lines 189-366); windows Camera::PausePreview/ResumePreview
(camera.cpp lines 1081-1091) and OnPreviewSample (lines 642-740).
──────────────────────────────────────────────────────────────────────── -/

/-- The session fields PausePreview/ResumePreview touch: the lifecycle
state and the `preview_paused_` flag. -/
structure CamView where
  state : CamState
  previewPaused : Bool
deriving DecidableEq, Repr

/-- Linux `Camera::PausePreview` (camera.cc lines 591-594): stores the
`preview_paused_` atomic only; `state_` is not touched. -/
def linuxPausePreview (c : CamView) : CamView :=
  { c with previewPaused := true }

/-- Linux `Camera::ResumePreview` (camera.cc lines 596-598). -/
def linuxResumePreview (c : CamView) : CamView :=
  { c with previewPaused := false }

/-- Windows `Camera::PausePreview` (camera.cpp lines 1081-1085): sets
`preview_paused_` and moves `state_` from kRunning to kPaused under
`state_mutex_`. -/
def winPausePreview (c : CamView) : CamView :=
  { state := if c.state = CamState.running then CamState.paused else c.state
  , previewPaused := true }

/-- Windows `Camera::ResumePreview` (camera.cpp lines 1087-1091). -/
def winResumePreview (c : CamView) : CamView :=
  { state := if c.state = CamState.paused then CamState.running else c.state
  , previewPaused := false }

/-- Which sinks receive one produced frame. -/
structure FrameDelivery where
  textureUpdated : Bool
  streamDelivered : Bool
  recordingDelivered : Bool
deriving DecidableEq, Repr

/-- Sink routing of one decoded frame on linux.  `Camera::OnNewSample`
updates the texture iff `!preview_paused_ || is_first_frame` (camera.cc
line 228, where `is_first_frame = !first_frame_received_`) and forwards to
the image stream iff `image_streaming_` (line 252).  The recording branch
hangs off the pipeline tee upstream of the preview appsink
(camera.cc lines 94-108, record_handler.cc lines 155-166) and receives the
frame iff the recording valve is open; `preview_paused_` is never
consulted on that path (it is only read at line 228). -/
def linuxFrameDelivery (previewPaused firstFrameAlreadyReceived streaming
    recordingActive : Bool) : FrameDelivery :=
  { textureUpdated := !previewPaused || !firstFrameAlreadyReceived
  , streamDelivered := streaming
  , recordingDelivered := recordingActive }

/-- Sink routing of one preview sample on windows.
`Camera::OnPreviewSample` updates the texture iff `!preview_paused_`
(camera.cpp line 711) and posts to the image stream iff `image_streaming_`
(line 717).  Recording frames flow through the capture engine's record
sink (record started at line 917), independent of the preview sample
handler, so the recording branch receives the frame iff recording is
active; `preview_paused_` is never consulted on that path. -/
def winFrameDelivery (previewPaused streaming recordingActive : Bool) :
    FrameDelivery :=
  { textureUpdated := !previewPaused
  , streamDelivered := streaming
  , recordingDelivered := recordingActive }

/- ════════════════════════════════════════════════════════════════════════
Theorems.
════════════════════════════════════════════════════════════════════════ -/

/-- The initial triple-buffer state satisfies the ring invariant. -/
theorem ringInv_init : RingInv initRing := by
  refine ⟨by decide, by decide, by decide, ?_, ?_, ?_⟩
  · intro p hp; simp [initRing] at hp
  · intro i f hf; simp [initRing] at hf
  · intro h; simp [initRing] at h

/-- Phase 1 of an Update preserves the ring invariant. -/
theorem ringInv_updBegin (s : RingState) (h : RingInv s) (w hh f : Nat) :
    RingInv (ringUpdBegin s w hh f) := by
  obtain ⟨h1, h2, h3, h4, h5, h6⟩ := h
  by_cases hc : s.copying ≠ none
  · rw [ringUpdBegin, if_pos hc]
    exact ⟨h1, h2, h3, h4, h5, h6⟩
  · by_cases hreq : w * hh * 4 = s.bufferSize
    · rw [ringUpdBegin, if_neg hc, if_pos hreq]
      refine ⟨h1, h2, h3, ?_, ?_, ?_⟩
      · intro p hp
        have hp2 : (s.writeIdx, f) = p := by simpa using hp
        simp [← hp2]
      · intro i g hg
        by_cases hi : i = s.writeIdx
        · simp only [if_pos hi] at hg
          simp at hg
        · simp only [if_neg hi] at hg
          exact h5 i g hg
      · intro hpos
        have h6p := h6 hpos
        refine ⟨?_, ?_⟩
        · intro hn
          simp only [if_neg (Ne.symm h2)]
          exact h6p.1 hn
        · intro hn
          simp only [if_neg (Ne.symm h1)]
          exact h6p.2 hn
    · rw [ringUpdBegin, if_neg hc, if_neg hreq]
      refine ⟨h1, h2, h3, ?_, ?_, ?_⟩
      · intro p hp
        have hp2 : (s.writeIdx, f) = p := by simpa using hp
        simp [← hp2]
      · intro i g hg
        simp at hg
      · intro hpos
        simp at hpos

/-- Phase 3 of an Update preserves the ring invariant. -/
theorem ringInv_updEnd (s : RingState) (h : RingInv s) :
    RingInv (ringUpdEnd s) := by
  obtain ⟨h1, h2, h3, h4, h5, h6⟩ := h
  rcases hc : s.copying with _ | p
  · unfold ringUpdEnd
    rw [hc]
    exact ⟨h1, h2, h3, h4, h5, h6⟩
  · obtain ⟨wi, f⟩ := p
    have hwi : wi = s.writeIdx := h4 (wi, f) hc
    unfold ringUpdEnd
    rw [hc]
    refine ⟨?_, ?_, ?_, ?_, ?_, ?_⟩
    · exact Ne.symm h3
    · exact Ne.symm h2
    · exact Ne.symm h1
    · intro q hq
      simp at hq
    · intro i g hg
      by_cases hi : i = wi
      · simp only [if_pos hi] at hg
        have hfg : f = g := by simpa using hg
        subst hfg
        simp
      · simp only [if_neg hi] at hg
        exact List.mem_append_left _ (h5 i g hg)
    · intro _
      refine ⟨?_, ?_⟩
      · intro _
        simp only [show s.writeIdx = wi from hwi.symm, if_pos rfl]
        simp
      · intro hfalse
        simp at hfalse

/-- An Obtain preserves the ring invariant. -/
theorem ringInv_obtain (s : RingState) (h : RingInv s) :
    RingInv (ringObtain s).1 := by
  obtain ⟨h1, h2, h3, h4, h5, h6⟩ := h
  unfold ringObtain
  by_cases hz : s.width = 0 ∨ s.height = 0 ∨ s.bufferSize = 0
  · rw [if_pos hz]
    exact ⟨h1, h2, h3, h4, h5, h6⟩
  · rw [if_neg hz]
    by_cases hn : s.hasNewFrame = true
    · rw [if_pos hn]
      refine ⟨h2, h1, Ne.symm h3, ?_, ?_, ?_⟩
      · intro p hp
        exact h4 p hp
      · intro i g hg
        exact h5 i g hg
      · intro hpos
        refine ⟨?_, ?_⟩
        · intro hfalse
          simp at hfalse
        · intro _
          exact (h6 hpos).1 hn
    · rw [if_neg hn]
      exact ⟨h1, h2, h3, h4, h5, h6⟩

/-- Each interleaving step preserves the ring invariant. -/
theorem ringInv_step (s : RingState) (h : RingInv s) (e : RingEvent) :
    RingInv (ringStep s e) := by
  cases e with
  | updBegin w hh f => exact ringInv_updBegin s h w hh f
  | updEnd => exact ringInv_updEnd s h
  | obtain => exact ringInv_obtain s h

/-- The ring invariant holds along any fold of events. -/
theorem ringInv_foldl (es : List RingEvent) :
    ∀ s, RingInv s → RingInv (es.foldl ringStep s) := by
  induction es with
  | nil => intro s h; exact h
  | cons e rest ih => intro s h; exact ih _ (ringInv_step s h e)

/-- Every state reachable from the initial triple buffer satisfies the
ring invariant. -/
theorem ringInv_run (es : List RingEvent) : RingInv (ringRun es) :=
  ringInv_foldl es initRing ringInv_init

/-- What Obtain returns in a state satisfying the ring invariant: an index
different from the write index and from any in-flight copy target; any
complete content it reports was written by a completed update; and content
is present whenever an update has completed since the last reallocation. -/
theorem ringObtain_spec (s : RingState) (h : RingInv s) (i : Fin 3)
    (c : Option Nat) (hres : (ringObtain s).2 = some (i, c)) :
    i ≠ s.writeIdx ∧
    (∀ p : Fin 3 × Nat, s.copying = some p → i ≠ p.1) ∧
    (∀ f, c = some f → f ∈ s.completed) ∧
    (0 < s.sinceRealloc → c ≠ none) := by
  obtain ⟨h1, h2, h3, h4, h5, h6⟩ := h
  unfold ringObtain at hres
  by_cases hz : s.width = 0 ∨ s.height = 0 ∨ s.bufferSize = 0
  · rw [if_pos hz] at hres
    simp at hres
  · rw [if_neg hz] at hres
    by_cases hn : s.hasNewFrame = true
    · rw [if_pos hn] at hres
      simp only [Option.some.injEq, Prod.mk.injEq] at hres
      obtain ⟨hi, hcv⟩ := hres
      subst hi
      refine ⟨Ne.symm h2, ?_, ?_, ?_⟩
      · intro p hp
        rw [h4 p hp]
        exact Ne.symm h2
      · intro f hf
        refine h5 s.readyIdx f ?_
        rw [hcv, hf]
      · intro hpos
        rw [← hcv]
        exact (h6 hpos).1 hn
    · rw [if_neg hn] at hres
      have hnf : s.hasNewFrame = false := by simpa using hn
      simp only [Option.some.injEq, Prod.mk.injEq] at hres
      obtain ⟨hi, hcv⟩ := hres
      subst hi
      refine ⟨Ne.symm h1, ?_, ?_, ?_⟩
      · intro p hp
        rw [h4 p hp]
        exact Ne.symm h1
      · intro f hf
        refine h5 s.readIdx f ?_
        rw [hcv, hf]
      · intro hpos
        rw [← hcv]
        exact (h6 hpos).2 hnf

/-- Claim C2 counterexample: on linux, run the first Update up to its
allocation phase only (`updBegin 2 2 0`: dimensions stored and all three
buffers allocated under the lock, copy of frame 0 started outside the
lock).  A concurrent Obtain now passes the dimension and null checks and
succeeds, returning buffer index 1 — a freshly allocated buffer whose
content is `none`: the set of completed Updates is empty, so the returned
buffer does not hold "a complete frame from a prior Update" as the claim
states. -/
theorem frameRing_claim_counterexample :
    (ringObtain (ringRun [RingEvent.updBegin 2 2 0])).2 = some (1, none) ∧
    (ringRun [RingEvent.updBegin 2 2 0]).completed = [] := by
  exact ⟨by decide, by decide⟩

/-- Claim C2 (amended): for every interleaving of Update and Obtain events
on the triple buffer, the three role indices write/ready/read remain
pairwise distinct, the buffer index returned by Obtain is never the
producer's current write index nor the target of an in-flight copy, and
every complete frame Obtain returns was fully written by a prior completed
Update; moreover the returned buffer always holds such a frame provided at
least one Update has completed since the buffers were last (re)allocated —
in the window between an Update's (re)allocation phase and its completing
swap, Obtain can return a freshly allocated buffer that no completed
Update has filled. -/
theorem frameRing_amended (es : List RingEvent) :
    ((ringRun es).writeIdx ≠ (ringRun es).readIdx ∧
     (ringRun es).writeIdx ≠ (ringRun es).readyIdx ∧
     (ringRun es).readIdx ≠ (ringRun es).readyIdx) ∧
    (∀ i c, (ringObtain (ringRun es)).2 = some (i, c) →
      i ≠ (ringRun es).writeIdx ∧
      (∀ p : Fin 3 × Nat, (ringRun es).copying = some p → i ≠ p.1) ∧
      (∀ f, c = some f → f ∈ (ringRun es).completed) ∧
      (0 < (ringRun es).sinceRealloc → c ≠ none)) := by
  have h := ringInv_run es
  exact ⟨⟨h.1, h.2.1, h.2.2.1⟩, fun i c hres => ringObtain_spec _ h i c hres⟩

/-- Witness for frameRing_amended: a completed Update of frame 7 at 2x2,
then an Obtain, which returns index 0 holding the complete frame 7. -/
theorem frameRing_amended_witness :
    (ringObtain (ringRun [RingEvent.updBegin 2 2 7, RingEvent.updEnd])).2 =
      some (0, some 7) ∧
    (0 : Fin 3) ≠ (ringRun [RingEvent.updBegin 2 2 7, RingEvent.updEnd]).writeIdx ∧
    7 ∈ (ringRun [RingEvent.updBegin 2 2 7, RingEvent.updEnd]).completed ∧
    (some 7 : Option Nat) ≠ none := by
  have h := (frameRing_amended [RingEvent.updBegin 2 2 7, RingEvent.updEnd]).2
      0 (some 7) (by decide)
  exact ⟨by decide, h.1, h.2.2.1 7 rfl, h.2.2.2 (by decide)⟩

/-- Claim C7 counterexample: windows `CameraTexture::Update` performs the
bulk pixel copy while holding the mutex — its single `std::lock_guard`
covers the memcpy — so the claim that the copy is performed without the
lock in every execution of the triple buffer's Update is false. -/
theorem updateLock_claim_counterexample :
    copyOutsideLock winUpdatePhases = false := by decide

/-- Claim C7 (amended): the linux implementation of the triple buffer's
Update performs the bulk copy with the lock released, holding the lock
only for the dimension check / reallocation, the write-index capture and
the final index swap; the windows implementation, by contrast, performs
the entire Update — including the bulk copy — under the lock. -/
theorem updateLock_amended :
    copyOutsideLock linuxUpdatePhases = true ∧
    copyOutsideLock winUpdatePhases = false ∧
    (linuxUpdatePhases.all fun p => p.lockHeld || p.action == UpdAction.bulkCopy)
      = true := by
  exact ⟨by decide, by decide, by decide⟩

/-- Claim C3 (code audit): the linux image-stream publication sequence
satisfies the release-fenced contract — ready=0 before all data writes,
all data writes before ready=1, and a release fence between the last data
write and ready=1 — while the windows `PostImageStreamFrame` sequence does
not: it writes ready=1 with no fence after the data writes. -/
theorem imageStream_release_fence :
    releaseFencedPublish linuxStreamPublish = true ∧
    releaseFencedPublish winStreamPublish = false := by
  exact ⟨by decide, by decide⟩

/- ── Pending-init helpers ──────────────────────────────────────────────── -/

/-- Once the linux pending entry is cleared, every trigger is a no-op. -/
theorem linuxStep_cleared (t : InitTrigger) :
    linuxInitTriggerStep linuxPendingCleared t = (linuxPendingCleared, []) := by
  cases t <;> rfl

/-- Running any trigger sequence from the cleared linux state emits no
response. -/
theorem linuxRun_cleared (ts : List InitTrigger) :
    linuxRunInitTriggers linuxPendingCleared ts = (linuxPendingCleared, []) := by
  induction ts with
  | nil => rfl
  | cons t rest ih =>
    simp [linuxRunInitTriggers, linuxStep_cleared, ih]

/-- Any single trigger on the armed linux state clears the pending entry
and emits exactly one response. -/
theorem linuxStep_armed (t : InitTrigger) :
    (linuxInitTriggerStep linuxPendingArmed t).1 = linuxPendingCleared ∧
    (linuxInitTriggerStep linuxPendingArmed t).2.length = 1 := by
  cases t <;> exact ⟨rfl, rfl⟩

/-- Closed form of a nonempty trigger run from the armed linux state. -/
theorem linuxRun_armed (t0 : InitTrigger) (ts : List InitTrigger) :
    linuxRunInitTriggers linuxPendingArmed (t0 :: ts) =
      (linuxPendingCleared, (linuxInitTriggerStep linuxPendingArmed t0).2) := by
  have h1 := (linuxStep_armed t0).1
  simp [linuxRunInitTriggers, h1, linuxRun_cleared]

/-- Once the windows pending table is cleared, every trigger is a no-op. -/
theorem winStep_cleared (t : WinInitTrigger) :
    winInitTriggerStep winPendingCleared t = (winPendingCleared, []) := by
  cases t <;> rfl

/-- Running any trigger sequence from the cleared windows table emits no
response. -/
theorem winRun_cleared (ts : List WinInitTrigger) :
    winRunInitTriggers winPendingCleared ts = (winPendingCleared, []) := by
  induction ts with
  | nil => rfl
  | cons t rest ih =>
    simp [winRunInitTriggers, winStep_cleared, ih]

/-- Any single trigger on the init-armed windows table clears it and emits
exactly one response. -/
theorem winStep_armed (t : WinInitTrigger) :
    (winInitTriggerStep winPendingInitOnly t).1 = winPendingCleared ∧
    (winInitTriggerStep winPendingInitOnly t).2.length = 1 := by
  cases t <;> exact ⟨rfl, rfl⟩

/-- Closed form of a nonempty trigger run from the armed windows table. -/
theorem winRun_armed (t0 : WinInitTrigger) (ts : List WinInitTrigger) :
    winRunInitTriggers winPendingInitOnly (t0 :: ts) =
      (winPendingCleared, (winInitTriggerStep winPendingInitOnly t0).2) := by
  have h1 := (winStep_armed t0).1
  simp [winRunInitTriggers, h1, winRun_cleared]

/-- Claim C1: for every Initialize that arms the pending entry, any
nonempty sequence of resolution triggers (first frame, collaborator error,
timeout, dispose) in any order delivers exactly one response — the first
trigger's — after which the pending entry is cleared and every later
trigger (including a late first frame) is a no-op that emits nothing.
Holds for the linux RespondToPendingInit arbiter and for the windows
CompleteInit / FailAllPendingResults pair over the PendingOperationTable. -/
theorem pendingInit_exactly_once (lt0 : InitTrigger) (lts : List InitTrigger)
    (wt0 : WinInitTrigger) (wts : List WinInitTrigger) :
    ((linuxRunInitTriggers linuxPendingArmed (lt0 :: lts)).2.length = 1 ∧
     (linuxRunInitTriggers linuxPendingArmed (lt0 :: lts)).2 =
       (linuxInitTriggerStep linuxPendingArmed lt0).2 ∧
     (linuxRunInitTriggers linuxPendingArmed (lt0 :: lts)).1 = linuxPendingCleared ∧
     (∀ t, linuxInitTriggerStep
         (linuxRunInitTriggers linuxPendingArmed (lt0 :: lts)).1 t =
       ((linuxRunInitTriggers linuxPendingArmed (lt0 :: lts)).1, []))) ∧
    ((winRunInitTriggers winPendingInitOnly (wt0 :: wts)).2.length = 1 ∧
     (winRunInitTriggers winPendingInitOnly (wt0 :: wts)).2 =
       (winInitTriggerStep winPendingInitOnly wt0).2 ∧
     (winRunInitTriggers winPendingInitOnly (wt0 :: wts)).1 = winPendingCleared ∧
     (∀ t, winInitTriggerStep
         (winRunInitTriggers winPendingInitOnly (wt0 :: wts)).1 t =
       ((winRunInitTriggers winPendingInitOnly (wt0 :: wts)).1, []))) := by
  have hl := linuxRun_armed lt0 lts
  have hw := winRun_armed wt0 wts
  refine ⟨⟨?_, ?_, ?_, ?_⟩, ⟨?_, ?_, ?_, ?_⟩⟩
  · rw [hl]
    exact (linuxStep_armed lt0).2
  · rw [hl]
  · rw [hl]
  · intro t
    rw [hl]
    exact linuxStep_cleared t
  · rw [hw]
    exact (winStep_armed wt0).2
  · rw [hw]
  · rw [hw]
  · intro t
    rw [hw]
    exact winStep_cleared t

/-- Claim C9 counterexample: on linux, a Dispose() that finds an
in-flight Initialize routes through RespondToPendingInit(false, ...),
which responds with error code "initialization_failed" — a different
error kind from the `disposed` code the claim requires. -/
theorem disposeMidInit_claim_counterexample :
    (linuxInitTriggerStep linuxPendingArmed InitTrigger.dispose).2 =
      [{ isError := true, code := "initialization_failed"
       , message := "Camera disposed during initialization"
       , width := 0, height := 0 }] ∧
    "initialization_failed" ≠ "disposed" := by
  exact ⟨rfl, by decide⟩

/-- Claim C9 (amended): when Dispose() runs while initialize is pending,
the pending call is failed promptly and exactly once, never left hanging —
on windows with error code `disposed` (FailAllPendingResults), on linux
with error code `initialization_failed` and the message "Camera disposed
during initialization"; in both cases the pending entry is cleared. -/
theorem disposeMidInit_amended :
    (winFailAllPendingResults winPendingInitOnly winDisposeMessage).2 =
      [{ isError := true, code := "disposed", message := winDisposeMessage
       , width := 0, height := 0 }] ∧
    (winFailAllPendingResults winPendingInitOnly winDisposeMessage).1 =
      winPendingCleared ∧
    (linuxInitTriggerStep linuxPendingArmed InitTrigger.dispose).2 =
      [{ isError := true, code := "initialization_failed"
       , message := linuxDisposeMessage, width := 0, height := 0 }] ∧
    (linuxInitTriggerStep linuxPendingArmed InitTrigger.dispose).1 =
      linuxPendingCleared := by
  exact ⟨rfl, rfl, rfl, rfl⟩

/- ── Recording-branch helpers ──────────────────────────────────────────── -/

/-- Closed form of the windows writer loop: it writes exactly the items
dequeued before the stop signal, drops the rest, and always finalizes. -/
theorem winWriterLoop_eq (q : List Nat) (k : Nat) :
    winWriterLoop q k = (q.take k, q.length - min k q.length, true) := by
  induction q generalizing k with
  | nil => cases k <;> simp [winWriterLoop]
  | cons i rest ih =>
    cases k with
    | zero => simp [winWriterLoop]
    | succ k =>
      simp [winWriterLoop, ih, Nat.succ_min_succ, Nat.succ_sub_succ]

/-- Claim C4 counterexample: a video item (id 5) accepted into the windows
recording queue is still queued when Stop() signals the writer loop
(`stopAfter = 0`); the loop drops it and finalizes the file without it, so
an item that was already accepted before the end marker is lost —
refuting "every accepted item reaches the writer and is flushed into the
finalized file". -/
theorem recordStop_claim_counterexample :
    winWriterLoop [5] 0 = ([], 1, true) ∧ ¬(5 ∈ (winWriterLoop [5] 0).1) := by
  exact ⟨rfl, by decide⟩

/-- Claim C4 (amended): on linux, StopRecording sends the end-of-stream
marker through the recording branch strictly before closing the upstream
valve, so every stage can flush the items already accepted; on windows,
once Stop signals the writer loop, the loop writes exactly the items it
dequeued before the signal, deliberately drops every item still queued,
and still finalizes the file from what was already written. -/
theorem recordStop_amended :
    eosPrecedesClose linuxStopActions = true ∧
    (∀ q k, winWriterLoop q k = (q.take k, q.length - min k q.length, true)) := by
  exact ⟨by decide, winWriterLoop_eq⟩

/-- Closed form of n AppendFrame calls with no intervening dequeues: the
queue retains min n 8 items, the counter equals the number of accepted
items, and the accepted timestamps are the consecutive multiples of the
frame duration. -/
theorem winAppend_state (dur n : Nat) :
    (winAppendFrame dur)^[n] winRecStartState =
      { isRecording := true, acceptingItems := true, writerRunning := true
      , videoQueueSize := min n 8, frameCounter := min n 8
      , acceptedTs := (List.range (min n 8)).map fun i => i * dur } := by
  induction n with
  | zero => rfl
  | succ k ih =>
    rw [Function.iterate_succ_apply', ih]
    by_cases hk : 8 ≤ k
    · have hmin : min k 8 = 8 := Nat.min_eq_right hk
      have hmin1 : min (k + 1) 8 = 8 := Nat.min_eq_right (Nat.le_succ_of_le hk)
      simp [winAppendFrame, kMaxVideoQueueItems, hmin, hmin1]
    · have hk8 : k < 8 := Nat.lt_of_not_le hk
      have hmin : min k 8 = k := Nat.min_eq_left (Nat.le_of_lt hk8)
      have hmin1 : min (k + 1) 8 = k + 1 := Nat.min_eq_left hk8
      simp [winAppendFrame, kMaxVideoQueueItems, hmin, hmin1,
        Nat.not_le.mpr hk8, List.range_succ]

/-- Claim C5: for every sequence of n AppendFrame calls on the windows
recording branch with no intervening dequeues, at most
kMaxVideoQueueItems (8) video items are retained (exactly min n 8), and a
frame arriving at a full queue is dropped without advancing the frame
counter, so the presentation timestamps of the accepted items are the
consecutive multiples 0·dur, 1·dur, ... of the frame duration — evenly
spaced with no gaps from the drops. -/
theorem appendFrame_bounded_spacing (dur n : Nat) :
    ((winAppendFrame dur)^[n] winRecStartState).videoQueueSize ≤
      kMaxVideoQueueItems ∧
    ((winAppendFrame dur)^[n] winRecStartState).videoQueueSize =
      min n kMaxVideoQueueItems ∧
    ((winAppendFrame dur)^[n] winRecStartState).acceptedTs =
      (List.range (min n kMaxVideoQueueItems)).map fun i => i * dur := by
  rw [winAppend_state]
  refine ⟨?_, rfl, rfl⟩
  simp [kMaxVideoQueueItems]

/-- Claim C6: a StartVideoRecording issued after a StopVideoRecording but
before the prior stop's finalize completes is serialized away from that
finalize.  On windows, RecordHandler::Start first joins the pending
stop_thread_ under the lifecycle lock, so by the time the new recording
starts the prior finalize has fully completed (it is queued behind it).
On linux, is_recording_ stays true until the EOS probe fires after the
file is flushed, so a premature StartRecording is rejected with
"already in progress", and succeeds once the probe has fired. -/
theorem recordRestart_serialized (sW : WinRecLifecycle) (sL : LinuxRecState)
    (hrec : sL.isRecording = true) (hsetup : sL.isSetup = true) :
    (winRecStart (winRecStop sW)).1.stopThreadActive = false ∧
    (winRecStart (winRecStop sW)).2 = WinStartOutcome.started ∧
    (∀ s : WinRecLifecycle, (winRecStart s).1.stopThreadActive = false) ∧
    (linuxStartRecording (linuxStopRecording sL)).2 =
      LinuxStartOutcome.errorAlreadyInProgress ∧
    (linuxStartRecording (linuxEosProbeFired (linuxStopRecording sL))).2 =
      LinuxStartOutcome.ok := by
  refine ⟨?_, ?_, ?_, ?_, ?_⟩
  · cases hsr : sW.isRecording <;> cases hst : sW.stopThreadActive <;>
      simp [winRecStop, winRecStart, winJoinStopThread, hsr, hst]
  · cases hsr : sW.isRecording <;> cases hst : sW.stopThreadActive <;>
      simp [winRecStop, winRecStart, winJoinStopThread, hsr, hst]
  · intro s
    by_cases h : s.isRecording = true <;>
      simp [winRecStart, winJoinStopThread, h]
  · simp [linuxStopRecording, linuxStartRecording, hrec]
  · simp [linuxStopRecording, linuxStartRecording, linuxEosProbeFired,
      hrec, hsetup]

/-- Witness for recordRestart_serialized at a concrete recording state. -/
theorem recordRestart_serialized_witness :
    (linuxStartRecording (linuxStopRecording
        { isSetup := true, isRecording := true, finalizing := false })).2 =
      LinuxStartOutcome.errorAlreadyInProgress ∧
    (winRecStart (winRecStop
        { isRecording := true, stopThreadActive := false })).2 =
      WinStartOutcome.started := by
  have h := recordRestart_serialized
      { isRecording := true, stopThreadActive := false }
      { isSetup := true, isRecording := true, finalizing := false } rfl rfl
  exact ⟨h.2.2.2.1, h.2.1⟩

/- ── Dispose helpers ───────────────────────────────────────────────────── -/

/-- Once the Disposing transition is claimed, later events never start
another teardown and the state stays in the Disposing/Disposed set. -/
theorem disposeRun_claimed (es : List DisposeEvent) :
    ∀ p : CamState × Nat,
      (p.1 = CamState.disposing ∨ p.1 = CamState.disposed) →
      (es.foldl disposeStep p).2 = p.2 ∧
      ((es.foldl disposeStep p).1 = CamState.disposing ∨
       (es.foldl disposeStep p).1 = CamState.disposed) := by
  induction es with
  | nil => intro p h; exact ⟨rfl, h⟩
  | cons e rest ih =>
    intro p h
    have hstep : (disposeStep p e).2 = p.2 ∧
        ((disposeStep p e).1 = CamState.disposing ∨
         (disposeStep p e).1 = CamState.disposed) := by
      cases e with
      | call =>
        rcases h with h | h <;>
          simp [disposeStep, linuxDisposeExchange, h]
      | teardownDone =>
        rcases h with h | h <;> simp [disposeStep, h]
    have hrest := ih (disposeStep p e) hstep.2
    exact ⟨hrest.1.trans hstep.1, hrest.2⟩

/-- From a state that has not begun disposal, any interleaving of Dispose
calls and teardown completions starts at most one teardown, and exactly
one as soon as some Dispose call occurs. -/
theorem disposeRun_spec (s0 : CamState) (es : List DisposeEvent)
    (h0 : ¬(s0 = CamState.disposing ∨ s0 = CamState.disposed)) :
    (disposeRun s0 es).2 ≤ 1 ∧
    (DisposeEvent.call ∈ es → (disposeRun s0 es).2 = 1) := by
  induction es with
  | nil => exact ⟨Nat.zero_le 1, fun h => absurd h (List.not_mem_nil _)⟩
  | cons e rest ih =>
    cases e with
    | teardownDone =>
      have h1 : ¬(s0 = CamState.disposing) := fun h => h0 (Or.inl h)
      have heq : disposeRun s0 (DisposeEvent.teardownDone :: rest) =
          disposeRun s0 rest := by
        simp [disposeRun, disposeStep, h1]
      rw [heq]
      refine ⟨ih.1, fun hmem => ih.2 ?_⟩
      simp only [List.mem_cons] at hmem
      rcases hmem with hmem | hmem
      · exact absurd hmem (by decide)
      · exact hmem
    | call =>
      have hstep : disposeStep (s0, 0) DisposeEvent.call =
          (CamState.disposing, 1) := by
        simp [disposeStep, linuxDisposeExchange, h0]
      have hc := disposeRun_claimed rest (CamState.disposing, 1) (Or.inl rfl)
      have heq : disposeRun s0 (DisposeEvent.call :: rest) =
          rest.foldl disposeStep (CamState.disposing, 1) := by
        simp [disposeRun, hstep]
      rw [heq]
      exact ⟨le_of_eq hc.1, fun _ => hc.1⟩

/-- Claim C8: Dispose is idempotent.  On linux the Disposing transition is
claimed by an atomic exchange, so over any interleaving of Dispose calls
and teardown completion from a live state, at most one full teardown runs
— exactly one once some Dispose call occurs — and every later call
observes Disposing/Disposed and is a no-op.  On windows, a DisposeAsync
issued while a first one is tearing down observes Disposing and is queued
behind it (returning promptly), and one issued after completion observes
Disposed and completes immediately. -/
theorem dispose_idempotent (s0 : CamState) (es : List DisposeEvent)
    (h0 : ¬(s0 = CamState.disposing ∨ s0 = CamState.disposed)) :
    (disposeRun s0 es).2 ≤ 1 ∧
    (DisposeEvent.call ∈ es → (disposeRun s0 es).2 = 1) ∧
    (∀ s, (winDisposeAsync s).2 = WinDisposeOutcome.startsTeardown →
      winDisposeAsync (winDisposeAsync s).1 =
        ((winDisposeAsync s).1, WinDisposeOutcome.queuedBehindInProgress)) ∧
    winDisposeAsync CamState.disposed =
      (CamState.disposed, WinDisposeOutcome.alreadyDone) := by
  obtain ⟨ha, hb⟩ := disposeRun_spec s0 es h0
  refine ⟨ha, hb, ?_, rfl⟩
  intro s hs
  by_cases h1 : s = CamState.disposed
  · simp [winDisposeAsync, h1] at hs
  · by_cases h2 : s = CamState.disposing
    · simp [winDisposeAsync, h1, h2] at hs
    · simp [winDisposeAsync, h1, h2]

/-- Witness for dispose_idempotent: from Running, two concurrent Dispose
calls plus the teardown completion and a third late call still yield
exactly one teardown. -/
theorem dispose_idempotent_witness :
    (disposeRun CamState.running
      [DisposeEvent.call, DisposeEvent.call, DisposeEvent.teardownDone,
       DisposeEvent.call]).2 = 1 := by
  exact (dispose_idempotent CamState.running
      [DisposeEvent.call, DisposeEvent.call, DisposeEvent.teardownDone,
       DisposeEvent.call] (by decide)).2.1 (by decide)

/-- Claim C10 counterexample: linux Camera::PausePreview only stores the
preview_paused_ flag; the session state is untouched, so a Running session
stays Running — it is not toggled to Paused as the claim states. -/
theorem pausePreview_claim_counterexample :
    (linuxPausePreview { state := CamState.running, previewPaused := false }).state
      = CamState.running ∧
    CamState.running ≠ CamState.paused := by
  exact ⟨rfl, by decide⟩

/-- Claim C10 (amended): PausePreview/ResumePreview suspend display
delivery only.  On windows they also toggle the session state between
Running and Paused; on linux only the preview_paused_ flag toggles and the
session state is left unchanged.  While paused (first frame already
received), a newly produced frame does not update the FrameSlotRing, but
the StreamChannel (if active) and the RecordingBranch (if active) still
receive that frame, on both platforms. -/
theorem pausePreview_amended :
    (∀ c : CamView,
      (linuxPausePreview c).previewPaused = true ∧
      (linuxPausePreview c).state = c.state ∧
      (linuxResumePreview c).previewPaused = false ∧
      (linuxResumePreview c).state = c.state) ∧
    (winPausePreview { state := CamState.running, previewPaused := false }).state
      = CamState.paused ∧
    (winResumePreview { state := CamState.paused, previewPaused := true }).state
      = CamState.running ∧
    (∀ streaming recordingActive : Bool,
      linuxFrameDelivery true true streaming recordingActive =
        { textureUpdated := false, streamDelivered := streaming
        , recordingDelivered := recordingActive } ∧
      winFrameDelivery true streaming recordingActive =
        { textureUpdated := false, streamDelivered := streaming
        , recordingDelivered := recordingActive }) := by
  refine ⟨fun c => ⟨rfl, rfl, rfl, rfl⟩, by simp [winPausePreview],
    by simp [winResumePreview], fun st rec => ⟨rfl, rfl⟩⟩

end CameraDesktop
